import Mathlib

/-! Formal model of the FIGI validation code in crates/symbology: the
checksum-verifying parser ported from ibkr_rust (ibrk_figi.rs), the
winnow combinator grammar (figi.rs), and the simplified imperative
variant (figi_imperative.rs). Rust strings are modelled as lists of
Unicode scalar values (List Char); byte-level operations go through an
explicit UTF-8 encoder. Machine integers (u8) are modelled in Nat:
every value involved stays below 256, so no wrap-around can occur. -/

set_option maxRecDepth 8192

deriving instance DecidableEq for Except

/-- UTF-8 encoding of one Unicode scalar value, exactly the bytes a Rust
String stores for this character. -/
def utf8Bytes (c : Char) : List Nat :=
  if c.toNat < 0x80 then [c.toNat]
  else if c.toNat < 0x800 then [0xC0 + c.toNat / 0x40, 0x80 + c.toNat % 0x40]
  else if c.toNat < 0x10000 then
    [0xE0 + c.toNat / 0x1000, 0x80 + c.toNat / 0x40 % 0x40, 0x80 + c.toNat % 0x40]
  else
    [0xF0 + c.toNat / 0x40000, 0x80 + c.toNat / 0x1000 % 0x40,
     0x80 + c.toNat / 0x40 % 0x40, 0x80 + c.toNat % 0x40]

/-- The UTF-8 byte sequence of a string, as Rust str::as_bytes. -/
def strBytes (s : List Char) : List Nat := (s.map utf8Bytes).flatten

/-- Decimal digit test for a char, as Rust char::is_digit(10) and the
winnow range one_of 0..=9: the scalar value lies between 48 and 57. -/
def isDigitChar (c : Char) : Bool := 48 ≤ c.toNat && c.toNat ≤ 57

/-- Ordered first-match lookup; this is how a Rust match over character
literals is modelled: the scrutinee is compared against each arm in
order and the first hit returns that value of the arm. -/
def charLookup {α : Type} : List (Char × α) → Char → Option α
  | [], _ => none
  | (k, v) :: rest, c => if c = k then some v else charLookup rest c

theorem charLookup_eq {α : Type} {f : α → Char} {table : List (Char × α)} :
    ∀ {c : Char} {v : α}, charLookup table c = some v →
      (∀ p ∈ table, f p.2 = p.1) → f v = c := by
  induction table with
  | nil => intro c v h _; exact Option.noConfusion h
  | cons hd tl ih =>
    obtain ⟨k, v0⟩ := hd
    intro c v h hf
    rw [charLookup] at h
    split_ifs at h with hc
    · injection h with h
      subst h
      rw [hf (k, v0) (List.mem_cons_self _ _), hc]
    · exact ih h (fun p hp => hf p (List.mem_cons_of_mem _ hp))

namespace Ibrk

/-- The Consonant enum of ibrk_figi.rs; the discriminant is the checksum
CharacterCode (non-contiguous: 11-35, skipping vowel slots). -/
inductive Consonant
  | B | C | D | F | G | H | J | K | L | M | N | P | Q | R | S | T | V | W | X | Y | Z
deriving DecidableEq, Repr

/-- Numeric discriminant of Consonant, as declared in the Rust enum. -/
def Consonant.code : Consonant → Nat
  | .B => 11 | .C => 12 | .D => 13 | .F => 15 | .G => 16 | .H => 17
  | .J => 19 | .K => 20 | .L => 21 | .M => 22 | .N => 23 | .P => 25
  | .Q => 26 | .R => 27 | .S => 28 | .T => 29 | .V => 31 | .W => 32
  | .X => 33 | .Y => 34 | .Z => 35

/-- From Consonant for char (ibrk_figi.rs). -/
def Consonant.toChar : Consonant → Char
  | .B => 'B' | .C => 'C' | .D => 'D' | .F => 'F' | .G => 'G' | .H => 'H'
  | .J => 'J' | .K => 'K' | .L => 'L' | .M => 'M' | .N => 'N' | .P => 'P'
  | .Q => 'Q' | .R => 'R' | .S => 'S' | .T => 'T' | .V => 'V' | .W => 'W'
  | .X => 'X' | .Y => 'Y' | .Z => 'Z'

/-- The arms of the TryFrom char match for Consonant (ibrk_figi.rs). -/
def Consonant.table : List (Char × Consonant) :=
  [('B', .B), ('C', .C), ('D', .D), ('F', .F), ('G', .G), ('H', .H), ('J', .J),
   ('K', .K), ('L', .L), ('M', .M), ('N', .N), ('P', .P), ('Q', .Q), ('R', .R),
   ('S', .S), ('T', .T), ('V', .V), ('W', .W), ('X', .X), ('Y', .Y), ('Z', .Z)]

/-- TryFrom char for Consonant (ibrk_figi.rs); none models the
InvalidConsonant error value. -/
def Consonant.tryFromChar (c : Char) : Option Consonant :=
  charLookup Consonant.table c

/-- The ConsonantOrNumeric enum of ibrk_figi.rs: digits carry their value
0-9, consonants the same codes as Consonant. -/
inductive ConsonantOrNumeric
  | Zero | One | Two | Three | Four | Five | Six | Seven | Eight | Nine
  | B | C | D | F | G | H | J | K | L | M | N | P | Q | R | S | T | V | W | X | Y | Z
deriving DecidableEq, Repr

/-- Numeric discriminant of ConsonantOrNumeric, as declared in Rust. -/
def ConsonantOrNumeric.code : ConsonantOrNumeric → Nat
  | .Zero => 0 | .One => 1 | .Two => 2 | .Three => 3 | .Four => 4
  | .Five => 5 | .Six => 6 | .Seven => 7 | .Eight => 8 | .Nine => 9
  | .B => 11 | .C => 12 | .D => 13 | .F => 15 | .G => 16 | .H => 17
  | .J => 19 | .K => 20 | .L => 21 | .M => 22 | .N => 23 | .P => 25
  | .Q => 26 | .R => 27 | .S => 28 | .T => 29 | .V => 31 | .W => 32
  | .X => 33 | .Y => 34 | .Z => 35

/-- From ConsonantOrNumeric for char (ibrk_figi.rs). -/
def ConsonantOrNumeric.toChar : ConsonantOrNumeric → Char
  | .Zero => '0' | .One => '1' | .Two => '2' | .Three => '3' | .Four => '4'
  | .Five => '5' | .Six => '6' | .Seven => '7' | .Eight => '8' | .Nine => '9'
  | .B => 'B' | .C => 'C' | .D => 'D' | .F => 'F' | .G => 'G' | .H => 'H'
  | .J => 'J' | .K => 'K' | .L => 'L' | .M => 'M' | .N => 'N' | .P => 'P'
  | .Q => 'Q' | .R => 'R' | .S => 'S' | .T => 'T' | .V => 'V' | .W => 'W'
  | .X => 'X' | .Y => 'Y' | .Z => 'Z'

/-- The arms of the TryFrom char match for ConsonantOrNumeric
(ibrk_figi.rs): the consonant arms first, then the digit arms, in the
order they appear in the source. -/
def ConsonantOrNumeric.table : List (Char × ConsonantOrNumeric) :=
  [('B', .B), ('C', .C), ('D', .D), ('F', .F), ('G', .G), ('H', .H), ('J', .J),
   ('K', .K), ('L', .L), ('M', .M), ('N', .N), ('P', .P), ('Q', .Q), ('R', .R),
   ('S', .S), ('T', .T), ('V', .V), ('W', .W), ('X', .X), ('Y', .Y), ('Z', .Z),
   ('0', .Zero), ('1', .One), ('2', .Two), ('3', .Three), ('4', .Four),
   ('5', .Five), ('6', .Six), ('7', .Seven), ('8', .Eight), ('9', .Nine)]

/-- TryFrom char for ConsonantOrNumeric (ibrk_figi.rs). -/
def ConsonantOrNumeric.tryFromChar (c : Char) : Option ConsonantOrNumeric :=
  charLookup ConsonantOrNumeric.table c

/-- The unit struct G of ibrk_figi.rs (position 3 marker). -/
inductive G
  | mk
deriving DecidableEq, Repr

/-- From G for u8 in ibrk_figi.rs: the marker contributes code 16. -/
def G.code : G → Nat := fun _ => 16

/-- From G for char in ibrk_figi.rs. -/
def G.toChar : G → Char := fun _ => 'G'

/-- The reserved first-two-characters match of Figi::from_chars:
matches the pairs BS, BM, GG, GB, GH, KY, VG. -/
def reservedPair (a b : Char) : Bool :=
  (a == 'B' && (b == 'S' || b == 'M')) ||
  (a == 'G' && (b == 'G' || b == 'B' || b == 'H')) ||
  (a == 'K' && b == 'Y') || (a == 'V' && b == 'G')

/-- The Figi struct of ibrk_figi.rs. The fixed-size array field pos_4_12
is unrolled into its nine slots q0..q8 (q8 is the check digit slot). -/
structure Figi where
  pos_1 : Consonant
  pos_2 : Consonant
  pos_3 : G
  q0 : ConsonantOrNumeric
  q1 : ConsonantOrNumeric
  q2 : ConsonantOrNumeric
  q3 : ConsonantOrNumeric
  q4 : ConsonantOrNumeric
  q5 : ConsonantOrNumeric
  q6 : ConsonantOrNumeric
  q7 : ConsonantOrNumeric
  q8 : ConsonantOrNumeric
deriving DecidableEq, Repr

/-- The helper sum_digits_sub_100 of ibrk_figi.rs: one pass of decimal
digit summing for n below 100 (rem + (n - rem) / 10). -/
def sum_digits_sub_100 (n : Nat) : Nat :=
  let rem := n % 10
  rem + (n - rem) / 10

/-- Figi::is_valid of ibrk_figi.rs. The source folds over
pos_4_12[0..8] with enumerate, doubling at even loop index i (i.e. slots
q0, q2, q4, q6); here that loop over the fixed-size array is unrolled.
The first three summands and the final comparison are verbatim. -/
def Figi.is_valid (f : Figi) : Bool :=
  let sum := sum_digits_sub_100 f.pos_1.code
    + sum_digits_sub_100 (f.pos_2.code * 2)
    + sum_digits_sub_100 f.pos_3.code
    + sum_digits_sub_100 (2 * f.q0.code) + sum_digits_sub_100 f.q1.code
    + sum_digits_sub_100 (2 * f.q2.code) + sum_digits_sub_100 f.q3.code
    + sum_digits_sub_100 (2 * f.q4.code) + sum_digits_sub_100 f.q5.code
    + sum_digits_sub_100 (2 * f.q6.code) + sum_digits_sub_100 f.q7.code
  f.q8.code == (10 - sum % 10) % 10

/-- All the possible ways a FIGI code could be invalid (ibrk_figi.rs
InvalidFigi); each variant carries the offending characters. -/
inductive InvalidFigi
  | Checksum (s : List Char)
  | FirstTwo (s : List Char)
  | Third (s : List Char)
  | Consonant (s : List Char)
  | ConsonantOrNumeric (s : List Char)
  | Length (s : List Char)
deriving DecidableEq, Repr

/-- Figi::from_chars of ibrk_figi.rs on twelve characters: reserved-pair
match on the first two, consonant classification of the first two, the
literal G at position 3, ConsonantOrNumeric classification of the nine
remaining slots, then the checksum gate. -/
def Figi.from_chars (c0 c1 c2 c3 c4 c5 c6 c7 c8 c9 c10 c11 : Char) :
    Except InvalidFigi Figi :=
  if reservedPair c0 c1 then
    .error (.FirstTwo [c0, c1, c2, c3, c4, c5, c6, c7, c8, c9, c10, c11])
  else
    match Consonant.tryFromChar c0, Consonant.tryFromChar c1 with
    | some p1, some p2 =>
      if c2 = 'G' then
        match ConsonantOrNumeric.tryFromChar c3, ConsonantOrNumeric.tryFromChar c4,
            ConsonantOrNumeric.tryFromChar c5, ConsonantOrNumeric.tryFromChar c6,
            ConsonantOrNumeric.tryFromChar c7, ConsonantOrNumeric.tryFromChar c8,
            ConsonantOrNumeric.tryFromChar c9, ConsonantOrNumeric.tryFromChar c10,
            ConsonantOrNumeric.tryFromChar c11 with
        | some q0, some q1, some q2, some q3, some q4, some q5, some q6, some q7, some q8 =>
          if (Figi.mk p1 p2 .mk q0 q1 q2 q3 q4 q5 q6 q7 q8).is_valid then
            .ok (Figi.mk p1 p2 .mk q0 q1 q2 q3 q4 q5 q6 q7 q8)
          else .error (.Checksum [c0, c1, c2, c3, c4, c5, c6, c7, c8, c9, c10, c11])
        | _, _, _, _, _, _, _, _, _ =>
          .error (.ConsonantOrNumeric [c0, c1, c2, c3, c4, c5, c6, c7, c8, c9, c10, c11])
      else .error (.Third [c0, c1, c2, c3, c4, c5, c6, c7, c8, c9, c10, c11])
    | _, _ => .error (.Consonant [c0, c1, c2, c3, c4, c5, c6, c7, c8, c9, c10, c11])

/-- FromStr for Figi (ibrk_figi.rs): the twelve-byte try_into on
as_bytes (error InvalidFigi::Length otherwise), each byte cast to char,
then from_chars. -/
def Figi.from_str (s : List Char) : Except InvalidFigi Figi :=
  match strBytes s with
  | [b0, b1, b2, b3, b4, b5, b6, b7, b8, b9, b10, b11] =>
    Figi.from_chars (Char.ofNat b0) (Char.ofNat b1) (Char.ofNat b2) (Char.ofNat b3)
      (Char.ofNat b4) (Char.ofNat b5) (Char.ofNat b6) (Char.ofNat b7)
      (Char.ofNat b8) (Char.ofNat b9) (Char.ofNat b10) (Char.ofNat b11)
  | _ => .error (.Length s)

/-- From Figi for String (ibrk_figi.rs): push pos_1, pos_2, pos_3 and
the nine pos_4_12 slots back as characters. -/
def figiChars (f : Figi) : List Char :=
  [f.pos_1.toChar, f.pos_2.toChar, f.pos_3.toChar,
   f.q0.toChar, f.q1.toChar, f.q2.toChar, f.q3.toChar, f.q4.toChar,
   f.q5.toChar, f.q6.toChar, f.q7.toChar, f.q8.toChar]

/-- True exactly on the Length variant of an ibrk parse result. -/
def isLengthErr : Except InvalidFigi Figi → Bool
  | .error (.Length _) => true
  | _ => false

/-- The eleven CharacterCodes the checksum of is_valid draws on, in
position order 1..11: pos_1, pos_2, the marker code 16, then the first
eight pos_4_12 slots (the ninth slot is the check digit, not summed). -/
def figiCodes (f : Figi) : List Nat :=
  [f.pos_1.code, f.pos_2.code, f.pos_3.code,
   f.q0.code, f.q1.code, f.q2.code, f.q3.code,
   f.q4.code, f.q5.code, f.q6.code, f.q7.code]

end Ibrk

/-- One reduced summand of the checksum of Ibrk.Figi.is_valid, at
zero-based position i in the eleven-code list: the code is doubled at
odd zero-based index (even 1-based position) and then digit-summed. -/
def luhnReduce (i : Nat) (c : Nat) : Nat :=
  Ibrk.sum_digits_sub_100 (if i % 2 = 1 then 2 * c else c)

/-- The list of the eleven reduced contributions, starting at index i. -/
def luhnContribs : Nat → List Nat → List Nat
  | _, [] => []
  | i, c :: cs => luhnReduce i c :: luhnContribs (i + 1) cs

/-- The checksum sum: total of the reduced contributions. -/
def luhnSum (i : Nat) (cs : List Nat) : Nat := (luhnContribs i cs).sum

/-- Modelled from the claim wording, for comparison only: the same
reduction but doubling at EVEN zero-based index (odd 1-based position
1, 3, 5, 7, 9, 11), the parity the specification text asserts. -/
def claimContribs : Nat → List Nat → List Nat
  | _, [] => []
  | i, c :: cs =>
    Ibrk.sum_digits_sub_100 (if i % 2 = 0 then 2 * c else c) :: claimContribs (i + 1) cs

/-- Checksum total under the parity the specification text asserts. -/
def claimLuhnSum (i : Nat) (cs : List Nat) : Nat := (claimContribs i cs).sum

namespace Wn

/-- The CONSONANTS table of figi.rs. -/
def CONSONANTS : List Char :=
  ['B', 'C', 'D', 'F', 'G', 'H', 'J', 'K', 'L', 'M', 'N', 'P', 'Q', 'R', 'S', 'T',
   'V', 'W', 'X', 'Y', 'Z']

/-- is_consonant of figi.rs: membership in CONSONANTS. -/
def is_consonant (c : Char) : Bool := CONSONANTS.contains c

/-- The verify predicate of parse_figi: the two leading consonants equal
one of the seven restricted strings BS, BM, GG, GB, GH, KY, VG. -/
def restricted (l : List Char) : Prop :=
  l = ['B', 'S'] ∨ l = ['B', 'M'] ∨ l = ['G', 'G'] ∨ l = ['G', 'B'] ∨
  l = ['G', 'H'] ∨ l = ['K', 'Y'] ∨ l = ['V', 'G']

instance (l : List Char) : Decidable (restricted l) := by
  unfold restricted; infer_instance

/-- The newtype Figi of figi.rs, wrapping the recognized text. -/
structure Figi where
  chars : List Char
deriving DecidableEq, Repr

/-- Which stage of the winnow pipeline of parse_figi failed; the names
follow the StrContext descriptions attached in figi.rs, plus the
whole-input check of Parser::parse (trailing input). -/
inductive ParseFail
  | twoConsonants
  | markerG
  | bodyEight
  | checkDigit
  | trailing
deriving DecidableEq, Repr

/-- parse_figi of figi.rs, run through Parser::parse (which demands the
whole input be consumed). The pipeline is take_while(2, is_consonant)
verified against the restricted set, the literal G, take_while(8,
consonant or ascii digit), one_of(0..=9), recognized as the consumed
slice. take_while(n, p) succeeds exactly when the next n characters
exist and satisfy p, which the nested matches below spell out. -/
def parse_figi (s : List Char) : Except ParseFail Figi :=
  match s with
  | c0 :: c1 :: rest0 =>
    if is_consonant c0 && is_consonant c1 then
      if restricted [c0, c1] then .error .twoConsonants
      else
        match rest0 with
        | c2 :: rest1 =>
          if c2 = 'G' then
            match rest1 with
            | c3 :: c4 :: c5 :: c6 :: c7 :: c8 :: c9 :: c10 :: rest2 =>
              if [c3, c4, c5, c6, c7, c8, c9, c10].all
                  (fun c => is_consonant c || isDigitChar c) then
                match rest2 with
                | c11 :: rest3 =>
                  if isDigitChar c11 then
                    if rest3 = [] then .ok ⟨s⟩ else .error .trailing
                  else .error .checkDigit
                | [] => .error .checkDigit
              else .error .bodyEight
            | _ => .error .bodyEight
          else .error .markerG
        | [] => .error .markerG
    else .error .twoConsonants
  | _ => .error .twoConsonants

end Wn

namespace Imp

/-- The Figi newtype of figi_imperative.rs; the field is pub in Rust, so
any string can be wrapped without going through from_str. -/
structure Figi where
  chars : List Char
deriving DecidableEq, Repr

/-- FigiParseError of figi_imperative.rs. -/
inductive FigiParseError
  | InvalidLength
  | InvalidFormat
  | InvalidComponent
  | InvalidChecksum
deriving DecidableEq, Repr

/-- The valid_chars alphabet of figi_imperative.rs. -/
def valid_chars : List Char :=
  ['0', '1', '2', '3', '4', '5', '6', '7', '8', '9',
   'B', 'C', 'D', 'F', 'G', 'H', 'J', 'K', 'L', 'M', 'N', 'P', 'Q', 'R', 'S', 'T',
   'V', 'W', 'X', 'Y', 'Z']

/-- Membership in the valid_chars alphabet. -/
def validChar (c : Char) : Bool := valid_chars.contains c

/-- The restricted-prefixes match of figi_imperative.rs from_str: only
BS, BM, GG, GB and VG (GH and KY are absent from this list). -/
def impReserved (a b : Char) : Bool :=
  (a == 'B' && b == 'S') || (a == 'B' && b == 'M') || (a == 'G' && b == 'G') ||
  (a == 'G' && b == 'B') || (a == 'V' && b == 'G')

/-- from_str of figi_imperative.rs: byte length 12 (s.len() counts
bytes), every character in valid_chars, the restricted-prefix match on
the first two characters (the byte slice s[0..2], which after the
alphabet check holds the first two characters), the literal G third,
and a decimal last character; no checksum is computed. The two
fall-through arms model the byte-slice and unwrap panics, which are
unreachable once the length and alphabet checks have passed. -/
def from_str (s : List Char) : Except FigiParseError Figi :=
  if (strBytes s).length ≠ 12 then .error .InvalidLength
  else if ¬ (s.all validChar) then .error .InvalidFormat
  else
    match s with
    | c0 :: c1 :: c2 :: _ =>
      if impReserved c0 c1 then .error .InvalidComponent
      else if c2 ≠ 'G' then .error .InvalidComponent
      else
        match s.getLast? with
        | some d => if isDigitChar d then .ok ⟨s⟩ else .error .InvalidChecksum
        | none => .error .InvalidChecksum
    | _ => .error .InvalidFormat

end Imp

/-- The example identifier BBG000BLNNH6 from the test suites. -/
def bbg6 : List Char := ['B', 'B', 'G', '0', '0', '0', 'B', 'L', 'N', 'N', 'H', '6']

/-- The Ibrk.Figi value corresponding to BBG000BLNNH6. -/
def figiBBG : Ibrk.Figi :=
  ⟨.B, .B, .mk, .Zero, .Zero, .Zero, .B, .L, .N, .N, .H, .Six⟩

theorem char_toNat_lt (c : Char) : c.toNat < 1114112 := by
  rcases c.valid with h | ⟨_, h2⟩
  · exact lt_trans h (by norm_num)
  · exact h2

theorem toNat_ofNat_of_lt {b : Nat} (h : b < 256) : (Char.ofNat b).toNat = b := by
  have hv : b.isValidChar := Or.inl (by omega)
  simp [Char.ofNat, hv, Char.ofNatAux, Char.toNat, UInt32.toNat, BitVec.toNat_ofNatLt]

theorem utf8Bytes_ascii {c : Char} (h : c.toNat < 128) : utf8Bytes c = [c.toNat] := by
  simp [utf8Bytes, h]

theorem utf8Bytes_lt_256 (c : Char) : ∀ b ∈ utf8Bytes c, b < 256 := by
  have hc := char_toNat_lt c
  intro b hb
  unfold utf8Bytes at hb
  split_ifs at hb <;> (simp at hb; omega)

theorem utf8Bytes_ascii_of_all {c : Char} (h : ∀ b ∈ utf8Bytes c, b < 128) :
    utf8Bytes c = [c.toNat] ∧ c.toNat < 128 := by
  unfold utf8Bytes at h ⊢
  split_ifs at h ⊢ with h1 h2 h3
  · exact ⟨rfl, h1⟩
  · exact absurd (h (0xC0 + c.toNat / 0x40) (by simp)) (by omega)
  · exact absurd (h (0xE0 + c.toNat / 0x1000) (by simp)) (by omega)
  · exact absurd (h (0xF0 + c.toNat / 0x40000) (by simp)) (by omega)

theorem strBytes_lt_256 (s : List Char) : ∀ b ∈ strBytes s, b < 256 := by
  intro b hb
  simp [strBytes] at hb
  obtain ⟨c, _, hc⟩ := hb
  exact utf8Bytes_lt_256 c b hc

theorem strBytes_of_ascii {s : List Char} (h : ∀ b ∈ strBytes s, b < 128) :
    strBytes s = s.map Char.toNat := by
  induction s with
  | nil => rfl
  | cons c t ih =>
    have hsplit : strBytes (c :: t) = utf8Bytes c ++ strBytes t := by
      simp [strBytes]
    rw [hsplit] at h
    have hc := utf8Bytes_ascii_of_all (fun b hb => h b (List.mem_append_left _ hb))
    have ht := ih (fun b hb => h b (List.mem_append_right _ hb))
    rw [hsplit, hc.1, ht]
    rfl

theorem map_ofNat_strBytes {s : List Char} (h : ∀ b ∈ strBytes s, b < 128) :
    (strBytes s).map Char.ofNat = s := by
  rw [strBytes_of_ascii h, List.map_map]
  have hfun : ∀ c ∈ s, (Char.ofNat ∘ Char.toNat) c = c := fun c _ => Char.ofNat_toNat c
  rw [List.map_congr_left hfun]
  simp

namespace Ibrk

theorem tryFromChar_toChar {c : Char} {k : Consonant}
    (h : Consonant.tryFromChar c = some k) : k.toChar = c :=
  charLookup_eq h (by decide)

theorem cn_tryFromChar_toChar {c : Char} {k : ConsonantOrNumeric}
    (h : ConsonantOrNumeric.tryFromChar c = some k) : k.toChar = c :=
  charLookup_eq h (by decide)

theorem consonant_toChar_ascii (k : Consonant) : k.toChar.toNat < 128 := by
  cases k <;> decide

theorem cn_toChar_ascii (k : ConsonantOrNumeric) : k.toChar.toNat < 128 := by
  cases k <;> decide

theorem g_toChar_ascii (g : G) : g.toChar.toNat < 128 := by
  cases g <;> decide

theorem figiChars_ascii (f : Figi) : ∀ c ∈ figiChars f, c.toNat < 128 := by
  intro c hc
  simp [figiChars] at hc
  rcases hc with rfl | rfl | rfl | rfl | rfl | rfl | rfl | rfl | rfl | rfl | rfl | rfl
  · exact consonant_toChar_ascii _
  · exact consonant_toChar_ascii _
  · exact g_toChar_ascii _
  all_goals exact cn_toChar_ascii _

theorem from_chars_ok_chars {c0 c1 c2 c3 c4 c5 c6 c7 c8 c9 c10 c11 : Char} {f : Figi}
    (h : Figi.from_chars c0 c1 c2 c3 c4 c5 c6 c7 c8 c9 c10 c11 = .ok f) :
    figiChars f = [c0, c1, c2, c3, c4, c5, c6, c7, c8, c9, c10, c11] := by
  unfold Figi.from_chars at h
  split at h
  · simp at h
  · split at h
    · rename_i p1 p2 hp1 hp2
      split at h
      · rename_i hG
        split at h
        · rename_i q0 q1 q2 q3 q4 q5 q6 q7 q8 h3 h4 h5 h6 h7 h8 h9 h10 h11
          split at h
          · injection h with h
            subst h
            simp only [figiChars]
            rw [tryFromChar_toChar hp1, tryFromChar_toChar hp2,
              cn_tryFromChar_toChar h3, cn_tryFromChar_toChar h4,
              cn_tryFromChar_toChar h5, cn_tryFromChar_toChar h6,
              cn_tryFromChar_toChar h7, cn_tryFromChar_toChar h8,
              cn_tryFromChar_toChar h9, cn_tryFromChar_toChar h10,
              cn_tryFromChar_toChar h11, hG]
            rfl
          · simp at h
        · simp at h
      · simp at h
    · simp at h

end Ibrk

namespace Ibrk

theorem from_str_ascii {a0 a1 a2 a3 a4 a5 a6 a7 a8 a9 a10 a11 : Char}
    (h : ∀ c ∈ [a0, a1, a2, a3, a4, a5, a6, a7, a8, a9, a10, a11], c.toNat < 128) :
    Figi.from_str [a0, a1, a2, a3, a4, a5, a6, a7, a8, a9, a10, a11]
      = Figi.from_chars a0 a1 a2 a3 a4 a5 a6 a7 a8 a9 a10 a11 := by
  have hb : strBytes [a0, a1, a2, a3, a4, a5, a6, a7, a8, a9, a10, a11]
      = [a0.toNat, a1.toNat, a2.toNat, a3.toNat, a4.toNat, a5.toNat,
         a6.toNat, a7.toNat, a8.toNat, a9.toNat, a10.toNat, a11.toNat] := by
    simp [strBytes, utf8Bytes_ascii (h a0 (by simp)), utf8Bytes_ascii (h a1 (by simp)),
      utf8Bytes_ascii (h a2 (by simp)), utf8Bytes_ascii (h a3 (by simp)),
      utf8Bytes_ascii (h a4 (by simp)), utf8Bytes_ascii (h a5 (by simp)),
      utf8Bytes_ascii (h a6 (by simp)), utf8Bytes_ascii (h a7 (by simp)),
      utf8Bytes_ascii (h a8 (by simp)), utf8Bytes_ascii (h a9 (by simp)),
      utf8Bytes_ascii (h a10 (by simp)), utf8Bytes_ascii (h a11 (by simp))]
  unfold Figi.from_str
  rw [hb]
  simp only [Char.ofNat_toNat]

theorem from_str_ok_chars {s : List Char} {f : Figi}
    (h : Figi.from_str s = .ok f) : figiChars f = s := by
  unfold Figi.from_str at h
  split at h
  · rename_i b0 b1 b2 b3 b4 b5 b6 b7 b8 b9 b10 b11 heq
    have hcs := from_chars_ok_chars h
    have h256 : ∀ b ∈ strBytes s, b < 256 := strBytes_lt_256 s
    have hascii := figiChars_ascii f
    have hlt : ∀ b ∈ ([b0, b1, b2, b3, b4, b5, b6, b7, b8, b9, b10, b11] : List Nat),
        b < 128 := by
      intro b hb
      have hb256 : b < 256 := h256 b (by rw [heq]; simpa using hb)
      have hmem : Char.ofNat b ∈ figiChars f := by
        rw [hcs]
        simp at hb ⊢
        rcases hb with rfl | rfl | rfl | rfl | rfl | rfl | rfl | rfl | rfl | rfl | rfl | rfl <;>
          tauto
      have hlt2 := hascii _ hmem
      rwa [toNat_ofNat_of_lt hb256] at hlt2
    have h128 : ∀ b ∈ strBytes s, b < 128 := by rw [heq]; exact hlt
    have hs := map_ofNat_strBytes h128
    rw [hcs, ← hs, heq]
    simp
  · exact absurd h (by simp)

end Ibrk

namespace Wn

theorem parse_figi_ok_chars {s : List Char} {g : Figi}
    (h : parse_figi s = .ok g) : g.chars = s := by
  unfold parse_figi at h
  repeat' split at h
  all_goals try (exact Except.noConfusion h)
  all_goals (injection h with h; subst h; rfl)

end Wn

def bbgZeros : List Char := ['B', 'B', 'G', '0', '0', '0', '0', '0', '0', '0', '0', '0']

def sixAgrave : List Char := ['À', 'À', 'À', 'À', 'À', 'À']

def bbg11 : List Char := ['B', 'B', 'G', '0', '0', '0', 'B', 'L', 'N', 'N', 'H']

def vgCandidate : List Char := ['V', 'G', 'G', '0', '0', '0', '0', '0', '0', '0', '0', '0']

def digitChars : List Char := ['0', '1', '2', '3', '4', '5', '6', '7', '8', '9']

def pref11 : List Char := ['B', 'B', 'G', '0', '0', '0', '0', '0', '0', '0', '0']

def elevenG : List Char := ['1', '1', 'G', '0', '0', '0', '0', '0', '0', '0', '0', '9']

/-- C1 (counterexample): the claim asserts the CharacterCode is doubled at
the odd 1-based positions 1, 3, 5, 7, 9, 11 (zero-based even indices).
The code accepts BBG000BLNNH6, whose check digit slot holds 6, yet the
expected check digit computed with the parity the claim asserts is 0. -/
theorem c1_counterexample :
    Ibrk.Figi.from_str bbg6 = .ok figiBBG ∧
    figiBBG.q8.code = 6 ∧
    (10 - claimLuhnSum 0 (Ibrk.figiCodes figiBBG) % 10) % 10 = 0 ∧
    figiBBG.q8.code ≠ (10 - claimLuhnSum 0 (Ibrk.figiCodes figiBBG) % 10) % 10 :=
  ⟨by decide, by decide, by decide, by decide⟩

/-- C1 (amended): in the checksum of is_valid the CharacterCode is doubled
exactly at the even 1-based positions 2, 4, 6, 8, 10 — the odd zero-based
indices — and left unweighted at positions 1, 3, 5, 7, 9, 11; for every
grammatically valid Figi value, validity is exactly the comparison of the
slot-12 code against the check digit computed with this parity. -/
theorem c1_amended_doubling_parity (f : Ibrk.Figi) :
    f.is_valid = true ↔
      f.q8.code = (10 - luhnSum 0 (Ibrk.figiCodes f) % 10) % 10 := by
  have hm : 2 * f.pos_2.code = f.pos_2.code * 2 := Nat.mul_comm 2 _
  simp [Ibrk.Figi.is_valid, luhnSum, Ibrk.figiCodes, luhnContribs, luhnReduce, hm]
  constructor <;> intro h <;> omega

/-- C2 (counterexample): the grammatically valid, accepted input
BBG000BLNNH6 has a position whose reduced contribution is 10, not a
single digit: at position 10 the doubled code of N gives 46, whose digit
sum 4 + 6 = 10 is what enters the total, so not every contribution is
strictly below 10. -/
theorem c2_counterexample :
    Ibrk.Figi.from_str bbg6 = .ok figiBBG ∧
    luhnContribs 0 (Ibrk.figiCodes figiBBG) = [2, 4, 7, 0, 0, 0, 2, 6, 5, 10, 8] ∧
    ((luhnContribs 0 (Ibrk.figiCodes figiBBG)).all fun v => decide (v < 10)) = false :=
  ⟨by decide, by decide, by decide⟩

/-- C2 (amended): every weighted value (always below 100 here) is reduced
by one pass of decimal digit summing — sum_digits_sub_100 agrees with the
decimal digit sum below 100 — but the result is not iterated down to a
single digit: a reduced contribution can reach 10 or more, though it
always stays below 15. -/
theorem c2_amended_digit_sum :
    (∀ n, n < 100 → Ibrk.sum_digits_sub_100 n = (Nat.digits 10 n).sum) ∧
    (∀ f : Ibrk.Figi, ∀ v ∈ luhnContribs 0 (Ibrk.figiCodes f), v < 15) := by
  constructor
  · intro n hn
    rcases Nat.eq_zero_or_pos n with rfl | hpos
    · simp [Ibrk.sum_digits_sub_100]
    · rw [Nat.digits_def' (by norm_num : (1 : Nat) < 10) hpos]
      rcases Nat.eq_zero_or_pos (n / 10) with hq | hq
      · rw [hq]
        simp [Ibrk.sum_digits_sub_100]
        omega
      · rw [Nat.digits_def' (by norm_num : (1 : Nat) < 10) hq]
        have hqq : n / 10 / 10 = 0 := by omega
        rw [hqq]
        simp [Ibrk.sum_digits_sub_100]
        omega
  · intro f v hv
    have hcons : ∀ k : Ibrk.Consonant,
        Ibrk.sum_digits_sub_100 k.code < 15 ∧ Ibrk.sum_digits_sub_100 (2 * k.code) < 15 := by
      intro k
      cases k <;> exact ⟨by decide, by decide⟩
    have hcn : ∀ k : Ibrk.ConsonantOrNumeric,
        Ibrk.sum_digits_sub_100 k.code < 15 ∧ Ibrk.sum_digits_sub_100 (2 * k.code) < 15 := by
      intro k
      cases k <;> exact ⟨by decide, by decide⟩
    simp [Ibrk.figiCodes, luhnContribs, luhnReduce, Ibrk.G.code] at hv
    rcases hv with rfl | rfl | rfl | rfl | rfl | rfl | rfl | rfl | rfl | rfl | rfl <;>
      first
        | exact (hcons _).1
        | exact (hcons _).2
        | exact (hcn _).1
        | exact (hcn _).2
        | decide

/-- C2 (witness): the amended statement instantiated: 34 reduces to 7, and
the contribution 10 really occurs for the parsed BBG000BLNNH6. -/
theorem c2_witness :
    (34 < 100 ∧ Ibrk.sum_digits_sub_100 34 = (Nat.digits 10 34).sum) ∧
    (10 ∈ luhnContribs 0 (Ibrk.figiCodes figiBBG) ∧ 10 < 15) :=
  ⟨⟨by decide, c2_amended_digit_sum.1 34 (by decide)⟩,
   ⟨by decide, c2_amended_digit_sum.2 figiBBG 10 (by decide)⟩⟩

/-- C3: parse of BBG000BLNNH6 succeeds — in the checksum-complete parser
(so the input passes both the grammar and the weighted modulo-10
checksum) and in the winnow grammar — and the string form of the
resulting value is exactly BBG000BLNNH6 again. -/
theorem c3_parse_bbg000blnnh6 :
    Ibrk.Figi.from_str bbg6 = .ok figiBBG ∧
    Ibrk.figiChars figiBBG = bbg6 ∧
    Wn.parse_figi bbg6 = .ok ⟨bbg6⟩ ∧
    Wn.Figi.chars ⟨bbg6⟩ = bbg6 :=
  ⟨by decide, by decide, by decide, rfl⟩

/-- C4 (counterexample): values of the imperative Identifier need not
satisfy the checksum — BBG000000000 is produced by a successful
imperative parse (which never verifies the checksum and whose Figi field
is public in Rust), while the checksum-complete validator rejects
exactly this text with a checksum error. -/
theorem c4_counterexample :
    Imp.from_str bbgZeros = .ok ⟨bbgZeros⟩ ∧
    Ibrk.Figi.from_str bbgZeros = .error (.Checksum bbgZeros) :=
  ⟨by decide, by decide⟩

/-- C4 (amended): for the checksum-complete Figi, every value produced by
a successful from_chars re-validates: parsing its string form succeeds
again and returns the same value. -/
theorem c4_amended_revalidation (c0 c1 c2 c3 c4 c5 c6 c7 c8 c9 c10 c11 : Char)
    (f : Ibrk.Figi)
    (h : Ibrk.Figi.from_chars c0 c1 c2 c3 c4 c5 c6 c7 c8 c9 c10 c11 = .ok f) :
    Ibrk.Figi.from_str (Ibrk.figiChars f) = .ok f := by
  have hc := Ibrk.from_chars_ok_chars h
  have hascii := Ibrk.figiChars_ascii f
  unfold Ibrk.figiChars
  rw [Ibrk.from_str_ascii (fun c hc2 => hascii c hc2)]
  simp [Ibrk.figiChars] at hc
  obtain ⟨e0, e1, e2, e3, e4, e5, e6, e7, e8, e9, e10, e11⟩ := hc
  rw [e0, e1, e2, e3, e4, e5, e6, e7, e8, e9, e10, e11]
  exact h

/-- C4 (witness): the amended statement instantiated at BBG000BLNNH6. -/
theorem c4_witness :
    Ibrk.Figi.from_chars 'B' 'B' 'G' '0' '0' '0' 'B' 'L' 'N' 'N' 'H' '6' = .ok figiBBG ∧
    Ibrk.Figi.from_str (Ibrk.figiChars figiBBG) = .ok figiBBG :=
  ⟨by decide, c4_amended_revalidation 'B' 'B' 'G' '0' '0' '0' 'B' 'L' 'N' 'N' 'H' '6' figiBBG (by decide)⟩

/-- C5: lossless round-trip and idempotence, for the checksum-complete
parser and for the winnow grammar: whenever parsing succeeds, the string
form of the result is exactly the input, and parsing that string form
yields the same parse result. -/
theorem c5_round_trip_idempotent :
    (∀ (s : List Char) (f : Ibrk.Figi), Ibrk.Figi.from_str s = .ok f →
      Ibrk.figiChars f = s ∧
        Ibrk.Figi.from_str (Ibrk.figiChars f) = Ibrk.Figi.from_str s) ∧
    (∀ (s : List Char) (g : Wn.Figi), Wn.parse_figi s = .ok g →
      g.chars = s ∧ Wn.parse_figi g.chars = Wn.parse_figi s) := by
  constructor
  · intro s f h
    have hc := Ibrk.from_str_ok_chars h
    exact ⟨hc, by rw [hc]⟩
  · intro s g h
    have hc := Wn.parse_figi_ok_chars h
    exact ⟨hc, by rw [hc]⟩

/-- C5 (witness): instantiated at BBG000BLNNH6 for both parsers. -/
theorem c5_witness :
    Ibrk.Figi.from_str bbg6 = .ok figiBBG ∧
    Ibrk.figiChars figiBBG = bbg6 ∧
    Ibrk.Figi.from_str (Ibrk.figiChars figiBBG) = Ibrk.Figi.from_str bbg6 ∧
    Wn.parse_figi bbg6 = .ok (⟨bbg6⟩ : Wn.Figi) ∧
    Wn.Figi.chars ⟨bbg6⟩ = bbg6 :=
  ⟨by decide,
   (c5_round_trip_idempotent.1 bbg6 figiBBG (by decide)).1,
   (c5_round_trip_idempotent.1 bbg6 figiBBG (by decide)).2,
   by decide,
   (c5_round_trip_idempotent.2 bbg6 ⟨bbg6⟩ (by decide)).1⟩

def reservedPairs : List (Char × Char) :=
  [('B', 'S'), ('B', 'M'), ('G', 'G'), ('G', 'B'), ('G', 'H'), ('K', 'Y'), ('V', 'G')]

/-- C6: every candidate whose first two characters form one of the seven
reserved pairs BS, BM, GG, GB, GH, KY, VG is rejected — with the
prefix-stage error by the winnow grammar whatever follows, and with
InvalidFigi.FirstTwo by the checksum-complete parser for any choice of
the remaining ten characters. -/
theorem c6_reserved_rejection (a b : Char) (h : (a, b) ∈ reservedPairs) :
    (∀ rest, Wn.parse_figi (a :: b :: rest) = .error .twoConsonants) ∧
    (∀ c2 c3 c4 c5 c6 c7 c8 c9 c10 c11 : Char,
      Ibrk.Figi.from_chars a b c2 c3 c4 c5 c6 c7 c8 c9 c10 c11
        = .error (.FirstTwo [a, b, c2, c3, c4, c5, c6, c7, c8, c9, c10, c11])) := by
  simp [reservedPairs, Prod.ext_iff] at h
  rcases h with ⟨rfl, rfl⟩ | ⟨rfl, rfl⟩ | ⟨rfl, rfl⟩ | ⟨rfl, rfl⟩ | ⟨rfl, rfl⟩ |
      ⟨rfl, rfl⟩ | ⟨rfl, rfl⟩ <;>
    exact ⟨fun rest => rfl, fun c2 c3 c4 c5 c6 c7 c8 c9 c10 c11 => rfl⟩

/-- C6 (witness): instantiated at the pair BS over a tail that is valid in
positions 3 to 12. -/
theorem c6_witness :
    ('B', 'S') ∈ reservedPairs ∧
    Wn.parse_figi ['B', 'S', 'G', '0', '0', '0', 'B', 'L', 'N', 'N', 'H', '6']
      = .error .twoConsonants ∧
    Ibrk.Figi.from_chars 'B' 'S' 'G' '0' '0' '0' 'B' 'L' 'N' 'N' 'H' '6'
      = .error (.FirstTwo ['B', 'S', 'G', '0', '0', '0', 'B', 'L', 'N', 'N', 'H', '6']) :=
  ⟨by decide,
   (c6_reserved_rejection 'B' 'S' (by decide)).1 ['G', '0', '0', '0', 'B', 'L', 'N', 'N', 'H', '6'],
   (c6_reserved_rejection 'B' 'S' (by decide)).2 'G' '0' '0' '0' 'B' 'L' 'N' 'N' 'H' '6'⟩

/-- C7: any twelve characters satisfying the position 1-11 grammar whose
position 12 is not a decimal digit fail at the dedicated check-digit
stage of the winnow pipeline, an error distinct from every other failure
constructor; parse_figi computes no checksum at all, so the failure is
necessarily reported before any checksum comparison. -/
theorem c7_check_digit_stage (c0 c1 c2 c3 c4 c5 c6 c7 c8 c9 c10 c11 : Char)
    (h01 : Wn.is_consonant c0 = true) (h02 : Wn.is_consonant c1 = true)
    (hres : ¬ Wn.restricted [c0, c1])
    (hg : c2 = 'G')
    (hbody : ([c3, c4, c5, c6, c7, c8, c9, c10].all
      fun c => Wn.is_consonant c || isDigitChar c) = true)
    (hd : isDigitChar c11 = false) :
    Wn.parse_figi [c0, c1, c2, c3, c4, c5, c6, c7, c8, c9, c10, c11]
      = .error .checkDigit := by
  unfold Wn.parse_figi
  simp [h01, h02, hres, hg, hbody, hd]

/-- C7 (witness): instantiated at BBG000BLNNHH, whose twelfth character H
is not a digit. -/
theorem c7_witness :
    Wn.is_consonant 'B' = true ∧ ¬ Wn.restricted ['B', 'B'] ∧
    (['0', '0', '0', 'B', 'L', 'N', 'N', 'H'].all
      fun c => Wn.is_consonant c || isDigitChar c) = true ∧
    isDigitChar 'H' = false ∧
    Wn.parse_figi ['B', 'B', 'G', '0', '0', '0', 'B', 'L', 'N', 'N', 'H', 'H']
      = .error .checkDigit :=
  ⟨by decide, by decide, by decide, by decide,
   c7_check_digit_stage 'B' 'B' 'G' '0' '0' '0' 'B' 'L' 'N' 'N' 'H' 'H'
     (by decide) (by decide) (by decide) rfl (by decide) (by decide)⟩

/-- C8 (counterexample): six copies of the two-byte character À form an
input of six scalar values but twelve bytes; both length checks count
bytes, so neither implementation reports a length error on it: the
imperative variant answers InvalidFormat and the checksum-complete
variant a consonant error, although the scalar count is not 12. -/
theorem c8_counterexample :
    sixAgrave.length = 6 ∧ (strBytes sixAgrave).length = 12 ∧
    Imp.from_str sixAgrave = .error .InvalidFormat ∧
    Ibrk.isLengthErr (Ibrk.Figi.from_str sixAgrave) = false :=
  ⟨by decide, by decide, by decide, by decide⟩

/-- C8 (amended): the length gate counts UTF-8 bytes: every input whose
byte length differs from 12 fails with the length error in both
implementations (in particular any ASCII input of 11 or 13 characters),
while 12-byte inputs with fewer than 12 scalar values reach the
character-class checks instead. -/
theorem c8_amended_byte_length (s : List Char) (h : (strBytes s).length ≠ 12) :
    Imp.from_str s = .error .InvalidLength ∧
    Ibrk.Figi.from_str s = .error (.Length s) := by
  constructor
  · unfold Imp.from_str
    rw [if_pos h]
  · unfold Ibrk.Figi.from_str
    split
    · rename_i b0 b1 b2 b3 b4 b5 b6 b7 b8 b9 b10 b11 heq
      rw [heq] at h
      simp at h
    · rfl

/-- C8 (witness): the truncation BBG000BLNNH of the valid identifier, an
eleven-byte input, fails with the length error in both implementations. -/
theorem c8_witness :
    (strBytes bbg11).length = 11 ∧
    Imp.from_str bbg11 = .error .InvalidLength ∧
    Ibrk.Figi.from_str bbg11 = .error (.Length bbg11) :=
  ⟨by decide,
   (c8_amended_byte_length bbg11 (by decide)).1,
   (c8_amended_byte_length bbg11 (by decide)).2⟩

/-- C9 (counterexample): the claim states the imperative from_str does
not reject VG-prefixed candidates, but VGG000000000 is rejected with
InvalidComponent: VG is in the imperative reserved list. -/
theorem c9_counterexample :
    Imp.from_str vgCandidate = .error .InvalidComponent := by decide

/-- C9 (amended): the imperative reserved list is contained in the full
one and omits exactly GH and KY (BS, BM, GG, GB and VG are present); and
the variant performs no checksum verification: with the first eleven
characters fixed, all ten choices of final digit are accepted, whereas a
checksum gate would accept exactly one of them. -/
theorem c9_amended_imperative :
    (∀ a b : Char, Imp.impReserved a b = true → Ibrk.reservedPair a b = true) ∧
    Ibrk.reservedPair 'G' 'H' = true ∧ Imp.impReserved 'G' 'H' = false ∧
    Ibrk.reservedPair 'K' 'Y' = true ∧ Imp.impReserved 'K' 'Y' = false ∧
    Imp.impReserved 'B' 'S' = true ∧ Imp.impReserved 'B' 'M' = true ∧
    Imp.impReserved 'G' 'G' = true ∧ Imp.impReserved 'G' 'B' = true ∧
    Imp.impReserved 'V' 'G' = true ∧
    (∀ d ∈ digitChars, Imp.from_str (pref11 ++ [d]) = .ok ⟨pref11 ++ [d]⟩) := by
  refine ⟨?_, by decide, by decide, by decide, by decide, by decide, by decide,
    by decide, by decide, by decide, ?_⟩
  · intro a b h
    simp [Imp.impReserved] at h
    simp [Ibrk.reservedPair]
    tauto
  · intro d hd
    simp [digitChars] at hd
    rcases hd with rfl | rfl | rfl | rfl | rfl | rfl | rfl | rfl | rfl | rfl <;> decide

/-- C9 (witness): instantiated at the pair VG and at the final digit 9. -/
theorem c9_witness :
    Imp.impReserved 'V' 'G' = true ∧ Ibrk.reservedPair 'V' 'G' = true ∧
    '9' ∈ digitChars ∧ Imp.from_str (pref11 ++ ['9']) = .ok ⟨pref11 ++ ['9']⟩ :=
  ⟨by decide, c9_amended_imperative.1 'V' 'G' (by decide), by decide,
   c9_amended_imperative.2.2.2.2.2.2.2.2.2.2 '9' (by decide)⟩

theorem validChar_ascii {c : Char} (h : Imp.validChar c = true) : c.toNat < 128 := by
  have hm : c ∈ Imp.valid_chars := by simpa [Imp.validChar] using h
  have hall : ∀ x ∈ Imp.valid_chars, x.toNat < 128 := by decide
  exact hall c hm

/-- C10: the imperative variant enforces no positional character class on
positions 1-2 and 4-11 beyond membership in the combined alphabet: any
twelve alphabet characters whose first two are not caught by its
restricted-prefix match, whose third is the literal G and whose last is
a decimal digit parse successfully — in particular digits may stand at
positions 1 and 2. -/
theorem c10_imperative_positional (c0 c1 c2 c3 c4 c5 c6 c7 c8 c9 c10 c11 : Char)
    (hall : ([c0, c1, c2, c3, c4, c5, c6, c7, c8, c9, c10, c11].all Imp.validChar) = true)
    (hres : Imp.impReserved c0 c1 = false)
    (hg : c2 = 'G')
    (hd : isDigitChar c11 = true) :
    Imp.from_str [c0, c1, c2, c3, c4, c5, c6, c7, c8, c9, c10, c11]
      = .ok ⟨[c0, c1, c2, c3, c4, c5, c6, c7, c8, c9, c10, c11]⟩ := by
  subst hg
  have hall2 := hall
  simp only [List.all_cons, List.all_nil, Bool.and_eq_true, Bool.and_true] at hall2
  obtain ⟨h0, h1, h2, h3, h4, h5, h6, h7, h8, h9, h10, h11⟩ := hall2
  have hlen : (strBytes [c0, c1, 'G', c3, c4, c5, c6, c7, c8, c9, c10, c11]).length = 12 := by
    simp [strBytes, utf8Bytes_ascii (validChar_ascii h0), utf8Bytes_ascii (validChar_ascii h1),
      utf8Bytes_ascii (validChar_ascii h3), utf8Bytes_ascii (validChar_ascii h4),
      utf8Bytes_ascii (validChar_ascii h5), utf8Bytes_ascii (validChar_ascii h6),
      utf8Bytes_ascii (validChar_ascii h7), utf8Bytes_ascii (validChar_ascii h8),
      utf8Bytes_ascii (validChar_ascii h9), utf8Bytes_ascii (validChar_ascii h10),
      utf8Bytes_ascii (validChar_ascii h11),
      utf8Bytes_ascii (by decide : ('G' : Char).toNat < 128)]
  unfold Imp.from_str
  rw [if_neg (by simp [hlen])]
  rw [if_neg (by simp [hall])]
  simp [hres, hd, List.getLast?]

/-- C10 (witness): 11G000000009, with digits at positions 1 and 2, parses
successfully in the imperative variant. -/
theorem c10_witness :
    (elevenG.all Imp.validChar) = true ∧ Imp.impReserved '1' '1' = false ∧
    isDigitChar '9' = true ∧
    Imp.from_str elevenG = .ok ⟨elevenG⟩ :=
  ⟨by decide, by decide, by decide,
   c10_imperative_positional '1' '1' 'G' '0' '0' '0' '0' '0' '0' '0' '0' '9'
     (by decide) (by decide) rfl (by decide)⟩
